import Mathlib

/-!
Verification development for the arxiv tools module
(`promptulate/tools/arxiv/tools.py`).

The module coordinates two fan-out/fan-in workflows (`ArxivReferenceTool`
and `ArxivSummaryTool`) built on a process-wide publish/subscribe registry
(the external `broadcast_service` package), per-instance accumulator state
(a text buffer plus a completion counter), a busy-wait completion gate
(`while counter < 3: time.sleep(0.2)`) and two small parsers for
language-model replies.

Modelling conventions:
- Python strings are `List Char` (`Str`); machine text is kept verbatim.
- Fallible external collaborators (the arxiv query, the language model)
  are oracles returning `Except PyErr Str`; a handler whose external call
  raises aborts before its mutations, leaving the state unchanged.
- The literal Chinese prompt text is abstracted into prompt constructors
  carrying the data the source interpolates into the f-string.
-/

/-- Python strings, modelled as their character lists. -/
abbrev Str := List Char

/-- Exceptions that the modelled code can raise. -/
inductive PyErr where
  | assertionError
  | indexError
  | queryFailed
  deriving DecidableEq

/-- Python single-character `str.split(sep)`: splits on every occurrence of
the separator, keeping empty pieces, always returning at least one piece. -/
def splitOnChar (c : Char) : Str → List Str
  | [] => [[]]
  | x :: xs =>
    match splitOnChar c xs with
    | [] => [[]]
    | ys :: yss => if x = c then [] :: ys :: yss else (x :: ys) :: yss

/-- Python `needle in hay` substring containment. -/
def pyIn (needle : Str) : Str → Bool
  | [] => needle.isEmpty
  | c :: rest => needle.isPrefixOf (c :: rest) || pyIn needle rest

/-- Embedding of the nested `analyze_query_string` of
`ArxivReferenceTool.run` (tools.py lines 78-82):
`assert "[query]" in query_string`, then `query_string.split(":")[1]`
(an out-of-range index raises `IndexError`), then `.split(",")`.
No whitespace is stripped anywhere. -/
def analyze_query_string (query_string : Str) : Except PyErr (List Str) :=
  if pyIn "[query]".data query_string then
    match (splitOnChar ':' query_string).get? 1 with
    | some q => .ok (splitOnChar ',' q)
    | none => .error .indexError
  else
    .error .assertionError

example : analyze_query_string "[query]: a, b, c".data =
    .ok [" a".data, " b".data, " c".data] := by rfl

example : analyze_query_string "no marker here".data =
    .error .assertionError := by rfl

/-- Embedding of the busy-wait completion gates
`while self.reference_counter < 3: time.sleep(0.2)` (tools.py lines
104-105) and `while self.summary_counter < 3: time.sleep(0.2)` (lines
182-183).  `f t` is the counter value observed at the t-th poll (the
counter is mutated by concurrently running handlers); `fuel` bounds how
many polls we unfold, `none` meaning the loop is still running after
`fuel` polls.  The loop body checks the condition, sleeps when it holds,
and re-checks; it exits at the first poll whose observation is ≥
`required`. -/
def waitLoop (f : Nat → Nat) (required : Nat) : Nat → Nat → Option Nat
  | _, 0 => none
  | t, fuel + 1 => if f t < required then waitLoop f required (t + 1) fuel else some t

/-- The completion gate of `ArxivReferenceTool.run` (lines 104-105): the
required count is the literal `3`. -/
def ArxivReferenceTool.waitGate (f : Nat → Nat) (t fuel : Nat) : Option Nat :=
  waitLoop f 3 t fuel

/-- The completion gate of `ArxivSummaryTool.run` (lines 182-183): the
required count is the literal `3`. -/
def ArxivSummaryTool.waitGate (f : Nat → Nat) (t fuel : Nat) : Option Nat :=
  waitLoop f 3 t fuel

example : ArxivReferenceTool.waitGate (fun t => t) 0 10 = some 3 := by decide

example : ArxivReferenceTool.waitGate (fun _ => 0) 0 50 = none := by decide

lemma waitLoop_some (f : Nat → Nat) (required : Nat) :
    ∀ fuel t n, waitLoop f required t fuel = some n →
      required ≤ f n ∧ ∀ k, t ≤ k → k < n → f k < required := by
  intro fuel
  induction fuel with
  | zero => intro t n h; simp [waitLoop] at h
  | succ fuel ih =>
    intro t n h
    by_cases hc : f t < required
    · simp only [waitLoop, if_pos hc] at h
      obtain ⟨h1, h2⟩ := ih (t + 1) n h
      refine ⟨h1, ?_⟩
      intro k hk1 hk2
      rcases Nat.eq_or_lt_of_le hk1 with heq | hlt
      · exact heq ▸ hc
      · exact h2 k hlt hk2
    · simp only [waitLoop, if_neg hc] at h
      cases h
      exact ⟨Nat.le_of_not_lt hc, fun k hk1 hk2 => absurd (Nat.lt_of_le_of_lt hk1 hk2) (Nat.lt_irrefl _)⟩

lemma waitLoop_never (required : Nat) (hreq : 0 < required) :
    ∀ fuel t, waitLoop (fun _ => 0) required t fuel = none := by
  intro fuel
  induction fuel with
  | zero => intro t; simp [waitLoop]
  | succ fuel ih => intro t; simp only [waitLoop, if_pos hreq]; exact ih (t + 1)

/-- Python `\s` on the ASCII range: the characters of `string.whitespace`
(space, tab, newline, carriage return, vertical tab, form feed).
Non-ASCII Unicode whitespace is not modelled. -/
def pyIsSpace (c : Char) : Bool :=
  c == ' ' || c == '\t' || c == '\n' || c == '\r' || c == Char.ofNat 11 || c == Char.ofNat 12

/-- Python `\d` on the ASCII range: a decimal digit. -/
def pyIsDigit (c : Char) : Bool :=
  Nat.ble 48 c.toNat && Nat.ble c.toNat 57

/-- Maximal-munch run of decimal digits (`\d+` followed by a non-digit
literal needs no give-back, since a given-back digit can never match the
following `]`). -/
def takeDigits : Str → (Str × Str)
  | [] => ([], [])
  | c :: rest =>
    if pyIsDigit c then
      let p := takeDigits rest
      (c :: p.1, p.2)
    else
      ([], c :: rest)

/-- Backtracking for a greedy `\s+`: `wsRev` is the reversed tail of the
currently consumed whitespace run, `rest` the remaining input.  The
continuation is tried with the longest consumption first; on failure one
whitespace character is given back at a time, down to consuming a single
one. -/
def spacesBacktrack {α : Type} (k : Str → Option α) : Str → Str → Option α
  | [], _ => none
  | c :: cs, rest =>
    match k rest with
    | some r => some r
    | none => spacesBacktrack k cs (c :: rest)

/-- Greedy `\s+` followed by continuation `k`, with full backtracking:
consume the maximal whitespace run, then give characters back one at a
time while the continuation fails; at least one character must be
consumed. -/
def spacesPlusThen {α : Type} (k : Str → Option α) (s : Str) : Option α :=
  let p := s.span pyIsSpace
  spacesBacktrack k p.1.reverse p.2

/-- Lazy `(.+?)` followed by continuation `k`: `.` matches any character
except a newline; the group is extended one character at a time, shortest
first, calling `k group rest` at each length, exactly the expansion order
of a reluctant quantifier.  `accRev` holds the group consumed so far,
reversed. -/
def lazyDotPlusThen {α : Type} (k : Str → Str → Option α) : Str → Str → Option α
  | _, [] => none
  | accRev, c :: rest =>
    if c = '\n' then none
    else
      match k (c :: accRev).reverse rest with
      | some r => some r
      | none => lazyDotPlusThen k (c :: accRev) rest

/-- Match a literal string at the head of the input, returning the rest. -/
def dropLit (lit : Str) (s : Str) : Option Str :=
  if lit.isPrefixOf s then some (s.drop lit.length) else none

/-- One attempted match of the pattern
`\[(\d+)\]\s+(.+?),\s+(http://.+?);` of `analyze_reference_string`
(tools.py line 85) anchored at the head of `s`, with Python `re`
backtracking semantics.  Returns the captured `(group 2, group 3)` (title
and url; group 3 includes its literal `http://` prefix) and the input
remaining after the match. -/
def matchAt (s : Str) : Option ((Str × Str) × Str) :=
  match s with
  | '[' :: s1 =>
    match takeDigits s1 with
    | ([], _) => none
    | (_ :: _, ']' :: s3) =>
      spacesPlusThen (fun s4 =>
        lazyDotPlusThen (fun title s5 =>
          match s5 with
          | ',' :: s6 =>
            spacesPlusThen (fun s7 =>
              match dropLit "http://".data s7 with
              | some s8 =>
                lazyDotPlusThen (fun urlTail s9 =>
                  match s9 with
                  | ';' :: s10 => some ((title, "http://".data ++ urlTail), s10)
                  | _ => none) [] s8
              | none => none) s6
          | _ => none) [] s4) s3
    | (_ :: _, _) => none
  | _ => none

/-- A parsed reference record (`{"title": ..., "url": ...}`). -/
structure Reference where
  title : Str
  url : Str
  deriving DecidableEq

/-- Scan of `re.finditer` over the input: at each position try a match;
on success record the captures and resume after the matched text, else
advance one character.  `fuel` bounds the scan; `analyze_reference_string`
supplies the input length, which suffices because every step consumes at
least one character. -/
def findAllAux : Nat → Str → List (Str × Str)
  | 0, _ => []
  | _, [] => []
  | fuel + 1, c :: rest =>
    match matchAt (c :: rest) with
    | some (g, after) => g :: findAllAux fuel after
    | none => findAllAux fuel rest

/-- Embedding of the nested `analyze_reference_string` of
`ArxivReferenceTool.run` (tools.py lines 84-89): collect
`{"title": group 2, "url": group 3}` for every non-overlapping match of
`\[(\d+)\]\s+(.+?),\s+(http://.+?);` in the input. -/
def analyze_reference_string (reference_string : Str) : List Reference :=
  (findAllAux reference_string.length reference_string).map (fun g => ⟨g.1, g.2⟩)

example : analyze_reference_string "[1] Title One, http://x; and [2] T, http://y;".data =
    [⟨"Title One".data, "http://x".data⟩, ⟨"T".data, "http://y".data⟩] := by decide

example : analyze_reference_string "[1] Title One(http://x);".data = [] := by decide

/-- Instance state of `ArxivReferenceTool` (tools.py lines 41-50): the
class-level defaults are `max_reference_num = 3`, `reference_string = ""`
and `reference_counter = 0`. -/
structure ArxivReferenceTool where
  max_reference_num : Nat := 3
  reference_string : Str := []
  reference_counter : Nat := 0
  deriving DecidableEq

/-- Instance state of `ArxivSummaryTool` (tools.py lines 120-138): the
class-level defaults are `summary_string = ""` and `summary_counter = 0`. -/
structure ArxivSummaryTool where
  summary_string : Str := []
  summary_counter : Nat := 0
  deriving DecidableEq

/-- Embedding of the handler `get_relevant_paper_info` registered by
`ArxivReferenceTool.run` (tools.py lines 66-76).  The external
`ArxivQueryTool.run` call is the oracle `q`; on success its result
`queryset` is appended to `reference_string` and `reference_counter` is
incremented by one; if the external call raises, the handler dies before
either mutation, leaving the state unchanged. -/
def get_relevant_paper_info (q : Str → Except PyErr Str) (keyword : Str)
    (s : ArxivReferenceTool) : ArxivReferenceTool :=
  match q keyword with
  | .ok queryset =>
    { s with
      reference_string := s.reference_string ++ queryset
      reference_counter := s.reference_counter + 1 }
  | .error _ => s

/-- Prompts built by `ArxivSummaryTool.run`'s handlers for the
language-model collaborator; each constructor carries the data the source
interpolates into the literal prompt text. -/
inductive SumPrompt where
  | opinion (paper_summary : Str)
  | future (paper_summary : Str)

/-- Embedding of the first handler `get_opinion` of
`ArxivSummaryTool.run` (tools.py lines 141-151): asks the language model
for key insights; on success appends the opinion plus a newline to
`summary_string` and increments `summary_counter`; if the model call
raises, the handler dies before either mutation. -/
def get_opinion (llm : SumPrompt → Except PyErr Str) (paper_summary : Str)
    (s : ArxivSummaryTool) : ArxivSummaryTool :=
  match llm (.opinion paper_summary) with
  | .ok opinion =>
    { s with
      summary_string := s.summary_string ++ opinion ++ ['\n']
      summary_counter := s.summary_counter + 1 }
  | .error _ => s

/-- Embedding of the handler `get_references` of `ArxivSummaryTool.run`
(tools.py lines 153-159): runs a fresh `ArxivReferenceTool` on the paper
summary (that nested workflow is the oracle `refRun` here); on success
appends the references plus a newline and increments `summary_counter`. -/
def get_references (refRun : Str → Except PyErr Str) (paper_summary : Str)
    (s : ArxivSummaryTool) : ArxivSummaryTool :=
  match refRun paper_summary with
  | .ok references =>
    { s with
      summary_string := s.summary_string ++ references ++ ['\n']
      summary_counter := s.summary_counter + 1 }
  | .error _ => s

/-- Embedding of the third handler of `ArxivSummaryTool.run` (tools.py
lines 161-170), also named `get_opinion` in the source (the second local
definition shadows the first name, but both decorated closures stay
registered): asks the language model for future research directions; same
mutation shape as the other handlers. -/
def get_opinion2 (llm : SumPrompt → Except PyErr Str) (paper_summary : Str)
    (s : ArxivSummaryTool) : ArxivSummaryTool :=
  match llm (.future paper_summary) with
  | .ok opinion =>
    { s with
      summary_string := s.summary_string ++ opinion ++ ['\n']
      summary_counter := s.summary_counter + 1 }
  | .error _ => s

/-- Modelled from the spec: the process-wide `broadcast_service` topic
registry, an external package imported by tools.py and not part of this
repository's sources.  Per spec section 4.1 it maps a topic name to the
ordered list of handlers registered for it; `register` appends with no
deduplication, and `publish` invokes every handler currently registered
under the topic, in registration order (the synchronous single-threaded
fan-out model of section 4.1).  `ι` is the broadcast argument type and
`σ` the state handlers act on. -/
abbrev Registry (ι σ : Type) := List (String × (ι → σ → σ))

/-- Modelled from the spec (section 4.1): `register(topic, handler)`
appends the handler to the topic's ordered list, creating the topic if
absent; no deduplication. -/
def Registry.register {ι σ : Type} (r : Registry ι σ) (topic : String)
    (h : ι → σ → σ) : Registry ι σ :=
  r ++ [(topic, h)]

/-- The handlers currently registered under a topic, in registration
order. -/
def Registry.handlersFor {ι σ : Type} (r : Registry ι σ) (topic : String) :
    List (ι → σ → σ) :=
  (r.filter (fun p => p.1 == topic)).map (fun p => p.2)

/-- Modelled from the spec (section 4.1): `publish(topic, input)` invokes
every handler currently registered under the topic, in registration
order, passing the input to each; with no handlers it is a no-op. -/
def Registry.publish {ι σ : Type} (r : Registry ι σ) (topic : String)
    (x : ι) (s : σ) : σ :=
  (r.handlersFor topic).foldl (fun st h => h x st) s

/-- The fixed topic name used by `ArxivReferenceTool.run` (line 66). -/
def refTopic : String := "ArxivReferenceTool.get_relevant_paper_info"

/-- The fixed topic name used by `ArxivSummaryTool.run` (line 141). -/
def sumTopic : String := "ArxivSummaryTool.summary"

/-- Prompts built by `ArxivReferenceTool.run` for the language-model
collaborator: the keyword-derivation prompt (lines 92-97, interpolating
`max_reference_num` and the query) and the synthesis prompt (lines
107-111, interpolating the accumulated `reference_string`). -/
inductive RefPrompt where
  | keywords (max_reference_num : Nat) (query : Str)
  | synthesize (reference_string : Str)

/-- Return value of `ArxivReferenceTool.run` (lines 115-117): the parsed
`List[Dict]` when `return_type == "original"`, else the raw model
reply. -/
inductive RunResult where
  | parsed (refs : List Reference)
  | raw (s : Str)
  deriving DecidableEq

/-- How a modelled call exits: a normal return, a raised exception that
propagates to the caller, or divergence (the completion gate polling
forever). -/
inductive RunExit (α : Type) where
  | ok (a : α)
  | raised (e : PyErr)
  | hangs

/-- The accumulator state right after line 91 of
`ArxivReferenceTool.run`: `self.reference_counter = 0` resets the
counter; `reference_string` is not touched. -/
def runStartState (s : ArxivReferenceTool) : ArxivReferenceTool :=
  { s with reference_counter := 0 }

/-- The result selection at the end of `ArxivReferenceTool.run` (lines
113-117): with `return_type == "original"` the model reply is parsed by
`analyze_reference_string`, otherwise returned raw. -/
def runFinalize (returnOriginal : Bool) (result : Str) : RunResult :=
  if returnOriginal then .parsed (analyze_reference_string result) else .raw result

/-- Embedding of `ArxivReferenceTool.run` (tools.py lines 52-117) in the
synchronous fan-out model: register the `get_relevant_paper_info` closure
on the process-wide topic, reset only the counter, derive keywords from
the model reply (an `AssertionError` or `IndexError` from
`analyze_query_string` propagates to the caller), broadcast each keyword
(each publish runs every handler registered under the topic, including
ones left by earlier invocations), then the completion gate: in this
synchronous model all handler work has finished when the gate is reached,
so a counter below 3 polls forever (`hangs`) and otherwise the gate
passes immediately and the result is synthesized from the accumulated
`reference_string`. -/
def ArxivReferenceTool.run (llm : RefPrompt → Str) (q : Str → Except PyErr Str)
    (returnOriginal : Bool) (query : Str) (s : ArxivReferenceTool)
    (reg : Registry Str ArxivReferenceTool) :
    RunExit (RunResult × ArxivReferenceTool × Registry Str ArxivReferenceTool) :=
  let reg1 := reg.register refTopic (get_relevant_paper_info q)
  let s1 := runStartState s
  match analyze_query_string (llm (.keywords s1.max_reference_num query)) with
  | .error e => .raised e
  | .ok keywords =>
    let s2 := keywords.foldl (fun st kw => reg1.publish refTopic kw st) s1
    if s2.reference_counter < 3 then .hangs
    else .ok (runFinalize returnOriginal (llm (.synthesize s2.reference_string)), s2, reg1)

/-- Process state for the cross-invocation hazard: every live
`ArxivReferenceTool` instance, indexed by an instance id.  Each `run`
call registers a fresh closure over its own instance (`self`) on the one
process-wide topic name. -/
abbrev RefWorld := Nat → ArxivReferenceTool

/-- Replace instance `i`'s state. -/
def updateWorld (w : RefWorld) (i : Nat) (st : ArxivReferenceTool) : RefWorld :=
  fun j => if j = i then st else w j

/-- The closure registered by instance `i`'s call to
`ArxivReferenceTool.run` (tools.py lines 66-76): it runs
`get_relevant_paper_info` against the `self` it closed over. -/
def refHandlerFor (q : Str → Except PyErr Str) (i : Nat) :
    Str → RefWorld → RefWorld :=
  fun kw w => updateWorld w i (get_relevant_paper_info q kw (w i))

/-- The registrations performed by a sequence of `ArxivReferenceTool.run`
calls on the instances listed in `is` (in call order), each appending one
fresh handler closure under the same process-wide topic name. -/
def registerRuns (q : Str → Except PyErr Str) (is : List Nat)
    (reg : Registry Str RefWorld) : Registry Str RefWorld :=
  is.foldl (fun r i => r.register refTopic (refHandlerFor q i)) reg

/-- Process state for every live `ArxivSummaryTool` instance. -/
abbrev SumWorld := Nat → ArxivSummaryTool

/-- Replace summary instance `i`'s state. -/
def updateSumWorld (w : SumWorld) (i : Nat) (st : ArxivSummaryTool) : SumWorld :=
  fun j => if j = i then st else w j

/-- The first closure registered by instance `i`'s
`ArxivSummaryTool.run` call (tools.py lines 141-151). -/
def sumHandler1For (llm : SumPrompt → Except PyErr Str) (ps : Str) (i : Nat) :
    Unit → SumWorld → SumWorld :=
  fun _ w => updateSumWorld w i (get_opinion llm ps (w i))

/-- The second closure registered by instance `i`'s
`ArxivSummaryTool.run` call (tools.py lines 153-159). -/
def sumHandler2For (refRun : Str → Except PyErr Str) (ps : Str) (i : Nat) :
    Unit → SumWorld → SumWorld :=
  fun _ w => updateSumWorld w i (get_references refRun ps (w i))

/-- The third closure registered by instance `i`'s
`ArxivSummaryTool.run` call (tools.py lines 161-170). -/
def sumHandler3For (llm : SumPrompt → Except PyErr Str) (ps : Str) (i : Nat) :
    Unit → SumWorld → SumWorld :=
  fun _ w => updateSumWorld w i (get_opinion2 llm ps (w i))

/-- The three registrations one `ArxivSummaryTool.run` call performs on
the shared topic, in source order. -/
def registerSummaryRun (llm : SumPrompt → Except PyErr Str)
    (refRun : Str → Except PyErr Str) (ps : Str) (i : Nat)
    (reg : Registry Unit SumWorld) : Registry Unit SumWorld :=
  ((reg.register sumTopic (sumHandler1For llm ps i)).register sumTopic
      (sumHandler2For refRun ps i)).register sumTopic (sumHandler3For llm ps i)

/-- The registrations performed by a sequence of `ArxivSummaryTool.run`
calls on the instances listed in `js` (three handlers per call). -/
def registerSummaryRuns (llm : SumPrompt → Except PyErr Str)
    (refRun : Str → Except PyErr Str) (ps : Str) (js : List Nat)
    (reg : Registry Unit SumWorld) : Registry Unit SumWorld :=
  js.foldl (fun r i => registerSummaryRun llm refRun ps i r) reg

/-- The handler closures, in registration order, that a sequence of
summary runs leaves on the shared topic: three per run. -/
def sumTriples (llm : SumPrompt → Except PyErr Str)
    (refRun : Str → Except PyErr Str) (ps : Str) :
    List Nat → List (Unit → SumWorld → SumWorld)
  | [] => []
  | i :: js =>
    sumHandler1For llm ps i :: sumHandler2For refRun ps i ::
      sumHandler3For llm ps i :: sumTriples llm refRun ps js

/-- The two accumulator mutations a handler performs, as atomic
operations: the buffer append and the counter increment (tools.py lines
75-76). -/
inductive AccOp where
  | append (fragment : Str)
  | increment

/-- Effect of one accumulator operation on the instance state. -/
def applyOp (s : ArxivReferenceTool) : AccOp → ArxivReferenceTool
  | .append f => { s with reference_string := s.reference_string ++ f }
  | .increment => { s with reference_counter := s.reference_counter + 1 }

/-- Run a schedule of accumulator operations in order. -/
def execOps (ops : List AccOp) (s : ArxivReferenceTool) : ArxivReferenceTool :=
  ops.foldl applyOp s

/-- The operation sequence of one successful handler invocation
(tools.py lines 75-76): append the queryset, then increment. -/
def handlerOps (queryset : Str) : List AccOp :=
  [.append queryset, .increment]

/-- Recognize the increment operation. -/
def isIncrement : AccOp → Bool
  | .increment => true
  | .append _ => false

/-- Count the increments in a schedule. -/
def countIncr (ops : List AccOp) : Nat :=
  (ops.filter isIncrement).length

/-- `Interleave xs ys zs`: `zs` is an order-preserving merge of the two
operation sequences `xs` and `ys` (one scheduling of two concurrent
handlers). -/
inductive Interleave : List AccOp → List AccOp → List AccOp → Prop where
  | nil : Interleave [] [] []
  | left (a : AccOp) {xs ys zs : List AccOp} :
      Interleave xs ys zs → Interleave (a :: xs) ys (a :: zs)
  | right (a : AccOp) {xs ys zs : List AccOp} :
      Interleave xs ys zs → Interleave xs (a :: ys) (a :: zs)

/-- `IsSchedule ls sched`: `sched` is an arbitrary interleaving of the
per-handler operation sequences `ls` — each handler's operations appear
in program order, handlers interleave freely. -/
def IsSchedule : List (List AccOp) → List AccOp → Prop
  | [], sched => sched = []
  | l :: ls, sched => ∃ rest, IsSchedule ls rest ∧ Interleave l rest sched

/-- The state assignment at line 178 of `ArxivSummaryTool.run`:
`self.summary_string = paper_summary` replaces the buffer;
`summary_counter` is not written anywhere in `run` outside the
handlers. -/
def sumRunPreWait (paper_summary : Str) (s : ArxivSummaryTool) : ArxivSummaryTool :=
  { s with summary_string := paper_summary }

/-- A demo language-model oracle: replies with a well-formed three
keyword answer to the keyword-derivation prompt and a fixed synthesis
reply. -/
def llmDemo : RefPrompt → Str
  | .keywords _ _ => "[query]: a, b, c".data
  | .synthesize _ => "S".data

/-- A demo arxiv-query oracle that always succeeds with a one-character
queryset. -/
def qOk : Str → Except PyErr Str := fun _ => .ok ['Q']

/-- The accumulator state at the start of a second
`ArxivReferenceTool.run` invocation on the same instance: the state the
first invocation (run on a fresh instance with the demo oracles, via the
empty registry) leaves behind, after the second invocation's own
counter reset at line 91. -/
def afterFirstRun : ArxivReferenceTool :=
  match ArxivReferenceTool.run llmDemo qOk false ['x'] {} [] with
  | .ok (_, s, _) => runStartState s
  | _ => {}

deriving instance DecidableEq for Except

lemma handlersFor_append {ι σ : Type} (r1 r2 : Registry ι σ) (t : String) :
    (r1 ++ r2).handlersFor t = r1.handlersFor t ++ r2.handlersFor t := by
  simp [Registry.handlersFor, List.filter_append]

lemma handlersFor_register_same {ι σ : Type} (r : Registry ι σ) (t : String)
    (h : ι → σ → σ) :
    (r.register t h).handlersFor t = r.handlersFor t ++ [h] := by
  simp [Registry.register, Registry.handlersFor, List.filter_append]

lemma registerRuns_handlers (q : Str → Except PyErr Str) :
    ∀ (is : List Nat) (reg : Registry Str RefWorld),
      (registerRuns q is reg).handlersFor refTopic =
        reg.handlersFor refTopic ++ is.map (refHandlerFor q) := by
  intro is
  induction is with
  | nil => intro reg; simp [registerRuns]
  | cons i is ih =>
    intro reg
    show (registerRuns q is (reg.register refTopic (refHandlerFor q i))).handlersFor refTopic = _
    rw [ih, handlersFor_register_same]
    simp

lemma registerSummaryRun_handlers (llm : SumPrompt → Except PyErr Str)
    (refRun : Str → Except PyErr Str) (ps : Str) (i : Nat)
    (reg : Registry Unit SumWorld) :
    (registerSummaryRun llm refRun ps i reg).handlersFor sumTopic =
      reg.handlersFor sumTopic ++
        [sumHandler1For llm ps i, sumHandler2For refRun ps i, sumHandler3For llm ps i] := by
  simp [registerSummaryRun, handlersFor_register_same]

lemma registerSummaryRuns_handlers (llm : SumPrompt → Except PyErr Str)
    (refRun : Str → Except PyErr Str) (ps : Str) :
    ∀ (js : List Nat) (reg : Registry Unit SumWorld),
      (registerSummaryRuns llm refRun ps js reg).handlersFor sumTopic =
        reg.handlersFor sumTopic ++ sumTriples llm refRun ps js := by
  intro js
  induction js with
  | nil => intro reg; simp [registerSummaryRuns, sumTriples]
  | cons i js ih =>
    intro reg
    show (registerSummaryRuns llm refRun ps js
        (registerSummaryRun llm refRun ps i reg)).handlersFor sumTopic = _
    rw [ih, registerSummaryRun_handlers]
    simp [sumTriples]

lemma sumTriples_length (llm : SumPrompt → Except PyErr Str)
    (refRun : Str → Except PyErr Str) (ps : Str) :
    ∀ js : List Nat, (sumTriples llm refRun ps js).length = 3 * js.length := by
  intro js
  induction js with
  | nil => simp [sumTriples]
  | cons i js ih => simp [sumTriples, ih]; ring

lemma fold_refHandlers_counter (q : Str → Except PyErr Str)
    (hq : ∀ kw, ∃ r, q kw = .ok r) :
    ∀ (js : List Nat) (kw : Str) (w : RefWorld) (j : Nat),
      (((js.map (refHandlerFor q)).foldl (fun st h => h kw st) w) j).reference_counter
        = (w j).reference_counter + js.count j := by
  intro js
  induction js with
  | nil => intro kw w j; simp
  | cons i js ih =>
    intro kw w j
    obtain ⟨r, hr⟩ := hq kw
    simp only [List.map_cons, List.foldl_cons]
    rw [ih]
    have hstep : ((refHandlerFor q i kw w) j).reference_counter
        = (w j).reference_counter + if j = i then 1 else 0 := by
      by_cases hj : j = i <;>
        simp [refHandlerFor, updateWorld, get_relevant_paper_info, hr, hj]
    rw [hstep, List.count_cons]
    by_cases hj : j = i <;> simp [hj] <;> omega

lemma fold_sumTriples_counter (llm : SumPrompt → Except PyErr Str)
    (refRun : Str → Except PyErr Str) (ps : Str)
    (hllm : ∀ p, ∃ r, llm p = .ok r) (href : ∀ t, ∃ r, refRun t = .ok r) :
    ∀ (js : List Nat) (w : SumWorld) (j : Nat),
      (((sumTriples llm refRun ps js).foldl (fun st h => h () st) w) j).summary_counter
        = (w j).summary_counter + 3 * js.count j := by
  intro js
  induction js with
  | nil => intro w j; simp [sumTriples]
  | cons i js ih =>
    intro w j
    obtain ⟨r1, hr1⟩ := hllm (.opinion ps)
    obtain ⟨r2, hr2⟩ := href ps
    obtain ⟨r3, hr3⟩ := hllm (.future ps)
    simp only [sumTriples, List.foldl_cons]
    rw [ih]
    have hstep : ((sumHandler3For llm ps i ()
          (sumHandler2For refRun ps i () (sumHandler1For llm ps i () w))) j).summary_counter
        = (w j).summary_counter + if j = i then 3 else 0 := by
      by_cases hj : j = i <;>
        simp [sumHandler1For, sumHandler2For, sumHandler3For, updateSumWorld,
          get_opinion, get_references, get_opinion2, hr1, hr2, hr3, hj]
    rw [hstep, List.count_cons]
    by_cases hj : j = i <;> simp [hj] <;> omega

lemma execOps_counter : ∀ (ops : List AccOp) (s : ArxivReferenceTool),
    (execOps ops s).reference_counter = s.reference_counter + countIncr ops := by
  intro ops
  induction ops with
  | nil => intro s; simp [execOps, countIncr]
  | cons op ops ih =>
    intro s
    cases op with
    | append f =>
      simp only [execOps, List.foldl_cons] at *
      rw [ih]
      simp [applyOp, countIncr, isIncrement]
    | increment =>
      simp only [execOps, List.foldl_cons] at *
      rw [ih]
      simp [applyOp, countIncr, isIncrement]
      omega

lemma interleave_countIncr {xs ys zs : List AccOp} (h : Interleave xs ys zs) :
    countIncr zs = countIncr xs + countIncr ys := by
  induction h with
  | nil => simp [countIncr]
  | left a h ih =>
    cases ha : isIncrement a <;>
      simp [countIncr, List.filter_cons, ha] at * <;> omega
  | right a h ih =>
    cases ha : isIncrement a <;>
      simp [countIncr, List.filter_cons, ha] at * <;> omega

lemma isSchedule_countIncr : ∀ (ls : List (List AccOp)) (sched : List AccOp),
    IsSchedule ls sched → countIncr sched = (ls.map countIncr).sum := by
  intro ls
  induction ls with
  | nil =>
    intro sched h
    cases h
    simp [countIncr]
  | cons l ls ih =>
    intro sched h
    obtain ⟨rest, hrest, hint⟩ := h
    rw [interleave_countIncr hint, ih rest hrest]
    simp

lemma countIncr_handlerOps (f : Str) : countIncr (handlerOps f) = 1 := by
  simp [countIncr, handlerOps, isIncrement]

lemma sum_map_one (l : List Str) : (l.map (fun _ => 1)).sum = l.length := by
  induction l with
  | nil => simp
  | cons x l ih => simp [ih]; omega

lemma matchAt_nil : matchAt [] = none := rfl

lemma findAllAux_eq_nil : ∀ (fuel : Nat) (s : Str),
    (∀ i, matchAt (s.drop i) = none) → findAllAux fuel s = [] := by
  intro fuel
  induction fuel with
  | zero => intro s _; simp [findAllAux]
  | succ fuel ih =>
    intro s h
    cases s with
    | nil => simp [findAllAux]
    | cons c rest =>
      have h0 := h 0
      simp only [List.drop_zero] at h0
      simp only [findAllAux, h0]
      exact ih rest (fun i => h (i + 1))

/-- Handlers that only ever append to the reference buffer. -/
def AppendOnlyHandlers (hs : List (Str → ArxivReferenceTool → ArxivReferenceTool)) : Prop :=
  ∀ h ∈ hs, ∀ kw st, ∃ t, (h kw st).reference_string = st.reference_string ++ t

lemma get_relevant_paper_info_append (q : Str → Except PyErr Str) (kw : Str)
    (s : ArxivReferenceTool) :
    ∃ t, (get_relevant_paper_info q kw s).reference_string = s.reference_string ++ t := by
  cases hq : q kw with
  | ok r => exact ⟨r, by simp [get_relevant_paper_info, hq]⟩
  | error e => exact ⟨[], by simp [get_relevant_paper_info, hq]⟩

lemma fold_append_only :
    ∀ (hs : List (Str → ArxivReferenceTool → ArxivReferenceTool)),
      AppendOnlyHandlers hs → ∀ (kw : Str) (st : ArxivReferenceTool),
      ∃ t, (hs.foldl (fun s hh => hh kw s) st).reference_string = st.reference_string ++ t := by
  intro hs
  induction hs with
  | nil => intro _ kw st; exact ⟨[], by simp⟩
  | cons hh hs ih =>
    intro hall kw st
    obtain ⟨t1, ht1⟩ := hall hh (by simp) kw st
    obtain ⟨t2, ht2⟩ := ih (fun h hm => hall h (by simp [hm])) kw (hh kw st)
    exact ⟨t1 ++ t2, by simp [ht2, ht1, List.append_assoc]⟩

lemma publish_append_only (reg : Registry Str ArxivReferenceTool)
    (hreg : AppendOnlyHandlers (reg.handlersFor refTopic)) (kw : Str)
    (st : ArxivReferenceTool) :
    ∃ t, (reg.publish refTopic kw st).reference_string = st.reference_string ++ t :=
  fold_append_only _ hreg kw st

lemma fold_publish_append_only (reg : Registry Str ArxivReferenceTool)
    (hreg : AppendOnlyHandlers (reg.handlersFor refTopic)) :
    ∀ (kws : List Str) (st : ArxivReferenceTool),
      ∃ t, (kws.foldl (fun st kw => reg.publish refTopic kw st) st).reference_string
        = st.reference_string ++ t := by
  intro kws
  induction kws with
  | nil => intro st; exact ⟨[], by simp⟩
  | cons kw kws ih =>
    intro st
    obtain ⟨t1, ht1⟩ := publish_append_only reg hreg kw st
    obtain ⟨t2, ht2⟩ := ih (reg.publish refTopic kw st)
    exact ⟨t1 ++ t2, by simp [ht2, ht1, List.append_assoc]⟩

/-- C1: for the required completion count 3 used by both workflows, the
completion-gate wait of `ArxivReferenceTool.run` and of
`ArxivSummaryTool.run` returns only at a poll where the instance's
completion counter is at least 3, and never returns at an earlier poll:
every poll before the returning one observed a counter below 3. -/
theorem c1_gate_returns_only_at_threshold (f g : Nat → Nat) (t u fuelR fuelS n m : Nat)
    (hr : ArxivReferenceTool.waitGate f t fuelR = some n)
    (hs : ArxivSummaryTool.waitGate g u fuelS = some m) :
    (3 ≤ f n ∧ ∀ k, t ≤ k → k < n → f k < 3) ∧
    (3 ≤ g m ∧ ∀ k, u ≤ k → k < m → g k < 3) :=
  ⟨waitLoop_some f 3 fuelR t n hr, waitLoop_some g 3 fuelS u m hs⟩

theorem c1_witness :
    (3 ≤ (fun k => k) 3 ∧ ∀ k, 0 ≤ k → k < 3 → (fun k => k) k < 3) ∧
    (3 ≤ (fun k => k) 3 ∧ ∀ k, 0 ≤ k → k < 3 → (fun k => k) k < 3) :=
  c1_gate_returns_only_at_threshold (fun k => k) (fun k => k) 0 0 10 10 3 3
    (by decide) (by decide)

/-- C2: refuted timeout property — the completion-gate wait of both run
methods has no timeout at all: when the handlers never increment the
counter (observed counter constantly 0) the wait is still running after
every finite number of polls, for any poll budget; the code loops
forever instead of signalling a GateTimeout (no such error kind exists
in the code). -/
theorem c2_gate_has_no_timeout : ∀ fuel t,
    ArxivReferenceTool.waitGate (fun _ => 0) t fuel = none ∧
    ArxivSummaryTool.waitGate (fun _ => 0) t fuel = none :=
  fun fuel t =>
    ⟨waitLoop_never 3 (by decide) fuel t, waitLoop_never 3 (by decide) fuel t⟩

/-- C3: a publish invokes every handler currently registered for the
topic, including handlers left by earlier, logically-unrelated run
calls: after run calls on the instances listed in `is` (so `is.length`
fresh closures on the one process-wide reference topic; three closures
per call on the summary topic for `js`), a single broadcast invokes all
of them, and each invoked handler increments its own instance's
counter — instance `j` gains one increment per registration it owns
(three per summary registration). -/
theorem c3_publish_invokes_every_registered_handler
    (q : Str → Except PyErr Str) (hq : ∀ kw, ∃ r, q kw = .ok r)
    (llm : SumPrompt → Except PyErr Str) (refRun : Str → Except PyErr Str)
    (ps : Str) (hllm : ∀ p, ∃ r, llm p = .ok r) (href : ∀ t, ∃ r, refRun t = .ok r)
    (is js : List Nat) (kw : Str) (w : RefWorld) (v : SumWorld) (j : Nat) :
    ((registerRuns q is []).handlersFor refTopic).length = is.length ∧
    (((registerRuns q is []).publish refTopic kw w) j).reference_counter
      = (w j).reference_counter + is.count j ∧
    ((registerSummaryRuns llm refRun ps js []).handlersFor sumTopic).length
      = 3 * js.length ∧
    (((registerSummaryRuns llm refRun ps js []).publish sumTopic () v) j).summary_counter
      = (v j).summary_counter + 3 * js.count j := by
  have h1 := registerRuns_handlers q is []
  have h2 := registerSummaryRuns_handlers llm refRun ps js []
  have heR : Registry.handlersFor ([] : Registry Str RefWorld) refTopic = [] := rfl
  have heS : Registry.handlersFor ([] : Registry Unit SumWorld) sumTopic = [] := rfl
  rw [heR] at h1
  rw [heS] at h2
  simp only [List.nil_append] at h1 h2
  refine ⟨?_, ?_, ?_, ?_⟩
  · rw [h1]; simp
  · simp only [Registry.publish, h1]
    exact fold_refHandlers_counter q hq is kw w j
  · rw [h2]; exact sumTriples_length llm refRun ps js
  · simp only [Registry.publish, h2]
    exact fold_sumTriples_counter llm refRun ps hllm href js v j

def llmOkDemo : SumPrompt → Except PyErr Str := fun _ => .ok ['L']

def refRunOkDemo : Str → Except PyErr Str := fun _ => .ok ['R']

theorem c3_witness :
    ((registerRuns qOk [0, 1] []).handlersFor refTopic).length = [0, 1].length ∧
    (((registerRuns qOk [0, 1] []).publish refTopic ['k']
        (fun _ => ({} : ArxivReferenceTool))) 0).reference_counter
      = ((fun _ => ({} : ArxivReferenceTool)) 0).reference_counter + [0, 1].count 0 ∧
    ((registerSummaryRuns llmOkDemo refRunOkDemo ['P'] [0] []).handlersFor sumTopic).length
      = 3 * [0].length ∧
    (((registerSummaryRuns llmOkDemo refRunOkDemo ['P'] [0] []).publish sumTopic ()
        (fun _ => ({} : ArxivSummaryTool))) 0).summary_counter
      = ((fun _ => ({} : ArxivSummaryTool)) 0).summary_counter + 3 * [0].count 0 :=
  c3_publish_invokes_every_registered_handler qOk (fun _ => ⟨['Q'], rfl⟩)
    llmOkDemo refRunOkDemo ['P'] (fun _ => ⟨['L'], rfl⟩) (fun _ => ⟨['R'], rfl⟩)
    [0, 1] [0] ['k'] (fun _ => {}) (fun _ => {}) 0

/-- C4: each handler increments its accumulator's completion counter by
exactly one when its external call succeeds, leaves it untouched when the
external call fails before the increment, and never decrements it — for
the reference handler `get_relevant_paper_info` and all three summary
handlers. -/
theorem c4_counter_incremented_iff_handler_succeeds
    (q : Str → Except PyErr Str) (llm : SumPrompt → Except PyErr Str)
    (refRun : Str → Except PyErr Str) (kw ps : Str)
    (s : ArxivReferenceTool) (t : ArxivSummaryTool) :
    ((get_relevant_paper_info q kw s).reference_counter =
      match q kw with
      | .ok _ => s.reference_counter + 1
      | .error _ => s.reference_counter) ∧
    s.reference_counter ≤ (get_relevant_paper_info q kw s).reference_counter ∧
    ((get_opinion llm ps t).summary_counter =
      match llm (.opinion ps) with
      | .ok _ => t.summary_counter + 1
      | .error _ => t.summary_counter) ∧
    t.summary_counter ≤ (get_opinion llm ps t).summary_counter ∧
    ((get_references refRun ps t).summary_counter =
      match refRun ps with
      | .ok _ => t.summary_counter + 1
      | .error _ => t.summary_counter) ∧
    t.summary_counter ≤ (get_references refRun ps t).summary_counter ∧
    ((get_opinion2 llm ps t).summary_counter =
      match llm (.future ps) with
      | .ok _ => t.summary_counter + 1
      | .error _ => t.summary_counter) ∧
    t.summary_counter ≤ (get_opinion2 llm ps t).summary_counter := by
  refine ⟨?_, ?_, ?_, ?_, ?_, ?_, ?_, ?_⟩ <;>
    first
      | (cases hq : q kw <;> simp [get_relevant_paper_info, hq])
      | (cases h1 : llm (.opinion ps) <;> simp [get_opinion, h1])
      | (cases h2 : refRun ps <;> simp [get_references, h2])
      | (cases h3 : llm (.future ps) <;> simp [get_opinion2, h3])

/-- C5 counterexample: the model reply "[query]: a, b, c" does NOT parse
to the list ["a", "b", "c"] — the split keeps the leading space of each
piece. -/
theorem c5_counterexample :
    analyze_query_string "[query]: a, b, c".data ≠
      .ok ["a".data, "b".data, "c".data] := by
  decide

/-- C5 amended: `analyze_query_string` maps the reply "[query]: a, b, c"
to the ordered list [" a", " b", " c"] (the comma-split pieces keep
their whitespace — nothing is stripped), and any reply that does not
contain the marker "[query]" fails with a bare AssertionError — not a
distinct MalformedModelOutput error kind, which does not exist in the
code — that propagates to the caller. -/
theorem c5_amended (reply : Str) (hnm : pyIn "[query]".data reply = false) :
    analyze_query_string "[query]: a, b, c".data =
      .ok [" a".data, " b".data, " c".data] ∧
    analyze_query_string reply = .error .assertionError := by
  refine ⟨rfl, ?_⟩
  simp [analyze_query_string, hnm]

theorem c5_witness :
    analyze_query_string "[query]: a, b, c".data =
      .ok [" a".data, " b".data, " c".data] ∧
    analyze_query_string "no marker here".data = .error .assertionError :=
  c5_amended "no marker here".data (by decide)

/-- C6: the structured parse of the fixed literal layout
"[1] Title One(http://x);\n[2] Title Two(http://y);" is the empty list,
not the two claimed records: the finditer pattern demands a comma and
whitespace between title and url (`[i] title, url;`), a shape neither
the claimed input nor the layout requested by the synthesis prompt
(`[i] [title](url);`) ever contains.  On a comma-separated input the
same parser does produce the records, locating the divergence in the
regular expression. -/
theorem c6_claimed_layout_parses_to_nothing :
    analyze_reference_string "[1] Title One(http://x);\n[2] Title Two(http://y);".data
      = [] ∧
    analyze_reference_string "[1] Title One, http://x;\n[2] Title Two, http://y;".data
      = [⟨"Title One".data, "http://x".data⟩, ⟨"Title Two".data, "http://y".data⟩] := by
  constructor <;> decide

/-- C7 counterexample: the accumulator is not fresh at the start of every
`ArxivReferenceTool.run` invocation.  After one completed run on a fresh
instance (demo oracles: a well-formed three-keyword reply, every query
returning "Q"), the state a second invocation starts from — including
its own counter reset at line 91 — has the counter back at 0 but still
carries the first invocation's buffer "QQQ" instead of the empty
string. -/
theorem c7_counterexample :
    afterFirstRun.reference_counter = 0 ∧
    afterFirstRun.reference_string = "QQQ".data ∧
    "QQQ".data ≠ ([] : Str) := by
  refine ⟨rfl, rfl, by decide⟩

/-- C7 amended: at the start of each `ArxivReferenceTool.run` invocation
only the completion counter is reset — line 91 zeroes
`reference_counter` while leaving `reference_string` exactly as the
previous invocation left it — so when a run returns, its final buffer is
the incoming buffer plus the fragments appended during the invocation;
both fields are empty/zero only on the first invocation of a fresh
instance. -/
theorem c7_amended (llm : RefPrompt → Str) (q : Str → Except PyErr Str)
    (rt : Bool) (query : Str) (s : ArxivReferenceTool)
    (reg : Registry Str ArxivReferenceTool) (out : RunResult)
    (s2 : ArxivReferenceTool) (reg2 : Registry Str ArxivReferenceTool)
    (hreg : AppendOnlyHandlers (reg.handlersFor refTopic))
    (h : ArxivReferenceTool.run llm q rt query s reg = .ok (out, s2, reg2)) :
    (runStartState s).reference_counter = 0 ∧
    (runStartState s).reference_string = s.reference_string ∧
    ∃ t, s2.reference_string = s.reference_string ++ t := by
  refine ⟨rfl, rfl, ?_⟩
  simp only [ArxivReferenceTool.run] at h
  split at h
  · exact absurd h (by simp)
  next keywords hk =>
    split at h
    · exact absurd h (by simp)
    next hc =>
      have hs2 : s2 = keywords.foldl
          (fun st kw => (reg.register refTopic (get_relevant_paper_info q)).publish refTopic kw st)
          (runStartState s) := by
        cases h
        rfl
      have hreg1 : AppendOnlyHandlers
          ((reg.register refTopic (get_relevant_paper_info q)).handlersFor refTopic) := by
        rw [handlersFor_register_same]
        intro hh hm kw st
        rcases List.mem_append.mp hm with hmem | hmem
        · exact hreg hh hmem kw st
        · have : hh = get_relevant_paper_info q := by simpa using hmem
          rw [this]
          exact get_relevant_paper_info_append q kw st
      obtain ⟨t, ht⟩ := fold_publish_append_only _ hreg1 keywords (runStartState s)
      exact ⟨t, by rw [hs2, ht]; rfl⟩

theorem c7_witness :
    (runStartState ({} : ArxivReferenceTool)).reference_counter = 0 ∧
    (runStartState ({} : ArxivReferenceTool)).reference_string
      = ({} : ArxivReferenceTool).reference_string ∧
    ∃ t, (⟨3, "QQQ".data, 3⟩ : ArxivReferenceTool).reference_string
      = ({} : ArxivReferenceTool).reference_string ++ t :=
  c7_amended llmDemo qOk false ['x'] {} [] (.raw "S".data) ⟨3, "QQQ".data, 3⟩
    [(refTopic, get_relevant_paper_info qOk)]
    (by intro hh hm kw st; exact absurd hm (List.not_mem_nil hh)) rfl

/-- C8: when the counter increment is executed K times by K independent
handlers of one publish, modelled at the granularity the claim fixes —
arbitrary interleavings of the handlers' atomic append and increment
operations — the final completion counter is exactly the initial counter
plus K: no update is lost under any interleaving. -/
theorem c8_no_lost_updates (frags : List Str) (sched : List AccOp)
    (s : ArxivReferenceTool) (h : IsSchedule (frags.map handlerOps) sched) :
    (execOps sched s).reference_counter = s.reference_counter + frags.length := by
  rw [execOps_counter, isSchedule_countIncr _ _ h, List.map_map]
  congr 1
  have hcomp : countIncr ∘ handlerOps = fun _ => 1 := funext countIncr_handlerOps
  rw [hcomp, sum_map_one]

theorem c8_witness :
    (execOps [AccOp.append ['a'], AccOp.append ['b'], AccOp.increment, AccOp.increment]
        {}).reference_counter
      = ({} : ArxivReferenceTool).reference_counter + ([['a'], ['b']] : List Str).length :=
  c8_no_lost_updates [['a'], ['b']]
    [AccOp.append ['a'], AccOp.append ['b'], AccOp.increment, AccOp.increment] {}
    ⟨[AccOp.append ['b'], AccOp.increment],
     ⟨[], rfl,
      Interleave.left _ (Interleave.left _ Interleave.nil)⟩,
     Interleave.left _ (Interleave.right _ (Interleave.left _
       (Interleave.right _ Interleave.nil)))⟩

/-- C9: `ArxivSummaryTool.run` never resets `summary_counter` — the
only pre-wait state write, line 178, replaces `summary_string` and keeps
the counter — so on a second or later call on the same instance with
`summary_counter` already at least 3, the wait loop's condition is false
at the very first poll and the loop exits at poll 0, without waiting for
any of that call's own three handlers. -/
theorem c9_second_run_skips_wait (s : ArxivSummaryTool) (ps : Str)
    (f : Nat → Nat) (fuel : Nat) (h3 : 3 ≤ s.summary_counter)
    (hf : (sumRunPreWait ps s).summary_counter ≤ f 0) :
    (sumRunPreWait ps s).summary_counter = s.summary_counter ∧
    ArxivSummaryTool.waitGate f 0 (fuel + 1) = some 0 := by
  refine ⟨rfl, ?_⟩
  have hlt : ¬ f 0 < 3 := by
    have hle : (3 : Nat) ≤ f 0 := le_trans h3 hf
    omega
  simp [ArxivSummaryTool.waitGate, waitLoop, hlt]

theorem c9_witness :
    (sumRunPreWait ['P'] ⟨[], 3⟩).summary_counter
      = (⟨[], 3⟩ : ArxivSummaryTool).summary_counter ∧
    ArxivSummaryTool.waitGate (fun _ => 3) 0 1 = some 0 :=
  c9_second_run_skips_wait ⟨[], 3⟩ ['P'] (fun _ => 3) 0 (by decide) (by decide)

/-- C10: for every input in which no position starts a match of the
pattern `\[(\d+)\]\s+(.+?),\s+(http://.+?);`, `analyze_reference_string`
returns the empty list, and the `return_type == "original"` result
selection of `ArxivReferenceTool.run` therefore returns that silent
empty list instead of an error. -/
theorem c10_malformed_input_yields_silent_empty_list (s : Str)
    (h : ∀ i, i < s.length → matchAt (s.drop i) = none) :
    analyze_reference_string s = [] ∧ runFinalize true s = .parsed [] := by
  have hall : ∀ i, matchAt (s.drop i) = none := by
    intro i
    by_cases hi : i < s.length
    · exact h i hi
    · have hnil : s.drop i = [] := List.drop_eq_nil_of_le (Nat.le_of_not_lt hi)
      rw [hnil]
      exact matchAt_nil
  have he : analyze_reference_string s = [] := by
    unfold analyze_reference_string
    rw [findAllAux_eq_nil s.length s hall]
    rfl
  exact ⟨he, by simp [runFinalize, he]⟩

theorem c10_witness :
    analyze_reference_string "no references found".data = [] ∧
    runFinalize true "no references found".data = .parsed [] :=
  c10_malformed_input_yields_silent_empty_list "no references found".data (by decide)
